import Mathlib

/-!
Verification development for `pymccorrelation.py` (kiwasawa/pymccorrelation).

The Python source is shallowly embedded as follows:
* float values are modelled as exact rationals (`ℚ`); the transcendental tail
  of the Kendall computation (`sqrt`, the normal survival function) is
  modelled over `ℝ`;
* numpy random streams (`np.random.normal`, `np.random.randint`) are modelled
  as explicit oracle parameters (`ℕ → ℕ → ℚ` standard-normal draws, and an
  index stream for bootstrap members) so that every function is deterministic
  in its inputs;
* Python exceptions (`ValueError`, `TypeError`, `AssertionError`,
  `ZeroDivisionError`, `IndexError`) are modelled with `Except PyErr`;
* a value that the code stores as IEEE NaN is modelled as `Option.none`.
-/

/-- Python exceptions raised by the source, one constructor per kind:
`valuePerturb` is the `ValueError` of the up-front perturbation check
(`"dx or dy must be provided..."`, lines 118 and 195), `valueLenXY`,
`valueLenDX`, `valueLenDY` the three length `ValueError`s, `typeError` the
`TypeError` from subscripting or taking `len` of `None`, `assertionError`
the failed `assert`s of `perturb_values`, `zeroDivision` the
`ZeroDivisionError` of the Kendall variance denominator, and `indexError`
the `IndexError` from 2-D indexing a 1-D array. -/
inductive PyErr where
  | valuePerturb
  | valueLenXY
  | valueLenDX
  | valueLenDY
  | typeError
  | assertionError
  | zeroDivision
  | indexError
deriving DecidableEq

/-- Entry `a[i,j]` of the x concordance matrix of `kendall`
(lines 71–79 of the source):
0 on a tie; for `x[i] > x[j]`, −1 exactly when
`xlim[i] ∈ {0,−1}` and `xlim[j] ∈ {0,+1}`; for `x[i] < x[j]`, +1 exactly
when `xlim[i] ∈ {0,+1}` and `xlim[j] ∈ {0,−1}`; otherwise 0.
Out-of-range accesses use default 0; the loops of the source only index
inside the arrays. -/
def aij (x : List ℚ) (xlim : List ℤ) (i j : ℕ) : ℤ :=
  if x.getD i 0 = x.getD j 0 then 0
  else if x.getD i 0 > x.getD j 0 then
    (if (xlim.getD i 0 = 0 ∨ xlim.getD i 0 = -1) ∧ (xlim.getD j 0 = 0 ∨ xlim.getD j 0 = 1)
      then -1 else 0)
  else
    (if (xlim.getD i 0 = 0 ∨ xlim.getD i 0 = 1) ∧ (xlim.getD j 0 = 0 ∨ xlim.getD j 0 = -1)
      then 1 else 0)

/-- Entry `b[i,j]` of the y concordance matrix of `kendall`
(lines 81–90 of the source). Transcribed verbatim: the `y[i] < y[j]`
branch of the source tests `ylim[i]==0 or ylim[i]==0` (the same condition
twice), not the `ylim[i] ∈ {0,+1}` that would mirror the x branch. -/
def bij (y : List ℚ) (ylim : List ℤ) (i j : ℕ) : ℤ :=
  if y.getD i 0 = y.getD j 0 then 0
  else if y.getD i 0 > y.getD j 0 then
    (if (ylim.getD i 0 = 0 ∨ ylim.getD i 0 = -1) ∧ (ylim.getD j 0 = 0 ∨ ylim.getD j 0 = 1)
      then -1 else 0)
  else
    (if (ylim.getD i 0 = 0 ∨ ylim.getD i 0 = 0) ∧ (ylim.getD j 0 = 0 ∨ ylim.getD j 0 = -1)
      then 1 else 0)

/-- The statistic `S = np.sum(a*b)` of `kendall` (line 92): the double sum of the
entrywise product of two concordance matrices over `[0,num) × [0,num)`. -/
def Ssum (A B : ℕ → ℕ → ℤ) (n : ℕ) : ℤ :=
  Finset.sum (Finset.range n) (fun i =>
    Finset.sum (Finset.range n) (fun j => A i j * B i j))

/-- Row sum `np.sum(a, axis=1, keepdims=True)` of a concordance matrix. -/
def rowSum (A : ℕ → ℕ → ℤ) (n i : ℕ) : ℤ :=
  Finset.sum (Finset.range n) (fun j => A i j)

/-- The sum `np.sum(a*np.sum(a,axis=1,keepdims=True))` of `kendall` (line 93). -/
def sumMulRow (A : ℕ → ℕ → ℤ) (n : ℕ) : ℤ :=
  Finset.sum (Finset.range n) (fun i =>
    Finset.sum (Finset.range n) (fun j => A i j * rowSum A n i))

/-- The sum `np.sum(a*a)` of `kendall` (lines 93–94). -/
def sumSq (A : ℕ → ℕ → ℤ) (n : ℕ) : ℤ :=
  Finset.sum (Finset.range n) (fun i =>
    Finset.sum (Finset.range n) (fun j => A i j * A i j))

/-- The variance expression of `kendall` (lines 93–94), evaluated exactly
over `ℚ` for `n` with `n(n-1)(n-2) ≠ 0`:
`(4/(n(n-1)(n-2)))·(Σ a·rowSum(a) − Σ a²)·(Σ b·rowSum(b) − Σ b²)
 + (2/(n(n-1)))·(Σ a²)·(Σ b²)`. -/
def kvar (A B : ℕ → ℕ → ℤ) (n : ℕ) : ℚ :=
  4 / ((n : ℚ) * ((n : ℚ) - 1) * ((n : ℚ) - 2))
      * ((sumMulRow A n - sumSq A n : ℤ) : ℚ) * ((sumMulRow B n - sumSq B n : ℤ) : ℚ)
    + 2 / ((n : ℚ) * ((n : ℚ) - 1)) * ((sumSq A n : ℤ) : ℚ) * ((sumSq B n : ℤ) : ℚ)

/-- The exact (pre-floating-point) content of one `kendall` evaluation:
the statistic `S`, the variance `var`, and the sample size `num`. The
final `tau` and `pval` of the source are fixed functions of these three
(see `tauOf`, `pvalOf`). -/
structure KStats where
  S : ℤ
  var : ℚ
  num : ℕ
deriving DecidableEq

/-- The `kendall` function (lines 61–98): builds the two concordance
matrices from `(x, xlim)` and `(y, ylim)`, sums `S`, and computes the
variance. `num = len(x)`. When `num*(num-1)*(num-2) = 0` (that is,
`num < 3`), the Python expression `4/(num*(num-1)*(num-2))` is an integer
division by zero and raises `ZeroDivisionError`; this is the
`.error .zeroDivision` branch. -/
def kendallStats (x y : List ℚ) (xlim ylim : List ℤ) : Except PyErr KStats :=
  if ((x.length : ℤ)) * ((x.length : ℤ) - 1) * ((x.length : ℤ) - 2) = 0 then
    .error .zeroDivision
  else
    .ok ⟨Ssum (aij x xlim) (bij y ylim) x.length,
         kvar (aij x xlim) (bij y ylim) x.length,
         x.length⟩

/-- The survival function of the standard normal distribution,
`scipy.stats.norm.sf` (line 97): the measure of `(t, ∞)` under the
standard Gaussian. -/
noncomputable def normSF (t : ℝ) : ℝ :=
  ((ProbabilityTheory.gaussianReal 0 1) (Set.Ioi t)).toReal

/-- The value `tau = z*np.sqrt(2*(2*num+5))/(3*np.sqrt(num*(num-1)))` with
`z = S/np.sqrt(var)` (lines 95–96), over `ℝ`. -/
noncomputable def tauOf (s : KStats) : ℝ :=
  ((s.S : ℝ) / Real.sqrt ((s.var : ℚ) : ℝ)) * Real.sqrt (2 * (2 * (s.num : ℝ) + 5))
    / (3 * Real.sqrt ((s.num : ℝ) * ((s.num : ℝ) - 1)))

/-- The value `pval = st.norm.sf(abs(z))*2` (line 97), over `ℝ`. -/
noncomputable def pvalOf (s : KStats) : ℝ :=
  normSF |(s.S : ℝ) / Real.sqrt ((s.var : ℚ) : ℝ)| * 2

/-- The `(tau, pval)` pair a `kendall` call returns, as maybe-undefined
reals. When `var ≤ 0` the floating-point `z = S/np.sqrt(var)` is NaN or
±inf (the spec's NumericalUndefined); this is modelled as `none`. For
`var > 0` both values are the finite reals `tauOf`/`pvalOf`. -/
noncomputable def tauPvalOf (s : KStats) : Option ℝ × Option ℝ :=
  if s.var ≤ 0 then (none, none) else (some (tauOf s), some (pvalOf s))

/-- One full `kendall` evaluation: statistics composed with the
floating-point tail. -/
noncomputable def kendallR (x y : List ℚ) (xlim ylim : List ℤ) :
    Except PyErr (Option ℝ × Option ℝ) :=
  (kendallStats x y xlim ylim).map tauPvalOf

/-- Result shape of `perturb_values` (lines 33–56): either the flattened
pair of length-N arrays (the `Nperturb == 1` case, line 52–54) or the
pair of `Nperturb × N` arrays. -/
inductive PVOut where
  | flat (xp yp : List ℚ)
  | grid (xp yp : List (List ℚ))
deriving DecidableEq

/-- The function `perturb_values(x, y, dx, dy, Nperturb)` (lines 33–56). The three
`assert`s are checked, in source order, before any sampling; a failure is
Python `AssertionError`. Draw `k,i` of `np.random.normal(loc=x, scale=dx,
size=(Nperturb, Nvalues))` is `x[i] + gx k i * dx[i]` where `gx` is the
ambient standard-normal stream (likewise `gy` for y). For `Nperturb == 1`
the two `(1, Nvalues)` arrays are flattened (`List.flatten`). -/
def perturb_values (x y dx dy : List ℚ) (gx gy : ℕ → ℕ → ℚ) (Nperturb : ℕ) :
    Except PyErr PVOut :=
  if x.length ≠ y.length then .error .assertionError
  else if dx.length ≠ dy.length then .error .assertionError
  else if x.length ≠ dx.length then .error .assertionError
  else
    let xp := (List.range Nperturb).map (fun k =>
      (List.range x.length).map (fun i => x.getD i 0 + gx k i * dx.getD i 0))
    let yp := (List.range Nperturb).map (fun k =>
      (List.range x.length).map (fun i => y.getD i 0 + gy k i * dy.getD i 0))
    if Nperturb = 1 then .ok (.flat xp.flatten yp.flatten) else .ok (.grid xp yp)

/-- Holds (as `Bool`) when an optional uncertainty array is present with
the wrong length: the condition of
`if dx is not None and len(dx) != len(x)` (lines 122–125 and 199–202). -/
def optLenBad (o : Option (List ℚ)) (n : ℕ) : Bool :=
  match o with
  | none => false
  | some l => decide (l.length ≠ n)

/-- The four up-front validation checks shared verbatim by `pymcspearman`
(lines 118–125) and `pymckendall` (lines 195–202), in source order:
the perturbation check fires only when `Nperturb` is set and `dx` and `dy`
are BOTH absent, then the x/y length check, then the `dx` and `dy` length
checks. -/
def validate (x y : List ℚ) (dx dy : Option (List ℚ)) (Nperturb : Option ℕ) :
    Except PyErr Unit :=
  if Nperturb.isSome ∧ dx.isNone ∧ dy.isNone then .error .valuePerturb
  else if x.length ≠ y.length then .error .valueLenXY
  else if optLenBad dx x.length then .error .valueLenDX
  else if optLenBad dy y.length then .error .valueLenDY
  else .ok ()

/-- Support of one entry of numpy `np.random.randint(low, high)`: the
integers of `[low, high)` (`high` exclusive). -/
def randintSupport (low high : ℤ) : Set ℤ := Set.Ico low high

/-- Support of one entry of the bootstrap index matrix `members`, drawn as
`np.random.randint(0, high=Nvalues-1, size=(Nboot, Nvalues))` at
`pymcspearman` line 134 and `pymckendall` line 212: the integers of
`[0, Nvalues-1)`. The `randi` oracle passed to the two orchestrators
below ranges over this set. -/
def membersDraw (Nvalues : ℕ) : Set ℤ := randintSupport 0 ((Nvalues : ℤ) - 1)

/-- Propagate a list of per-trial `Except` results: the first error wins,
exactly as the first raising iteration of the Python trial loop aborts the
call. -/
def collectE {α : Type} : List (Except PyErr α) → Except PyErr (List α)
  | [] => .ok []
  | .error e :: _ => .error e
  | .ok a :: t => (collectE t).map (fun r => a :: r)

/-- Insert into a sorted list of rationals (ascending). -/
def insertQ (a : ℚ) : List ℚ → List ℚ
  | [] => [a]
  | b :: t => if a ≤ b then a :: b :: t else b :: insertQ a t

/-- Ascending insertion sort over `ℚ`, modelling numpy's sort inside the
percentile computation. -/
def sortQ : List ℚ → List ℚ
  | [] => []
  | a :: t => insertQ a (sortQ t)

/-- Linear-interpolation percentile of an already sorted nonempty list
(numpy's default `linear` method): at rank `h = p/100·(n-1)`, interpolate
between the entries at `⌊h⌋` and `⌈h⌉`. Empty input has no percentile
(`none`; numpy raises there, a case no claim exercises). -/
def percentileSorted (s : List ℚ) (p : ℚ) : Option ℚ :=
  match s with
  | [] => none
  | _ :: _ =>
    let h : ℚ := p / 100 * ((s.length : ℚ) - 1)
    let i0 : ℕ := (Int.floor h).toNat
    let i1 : ℕ := (Int.ceil h).toNat
    some (s.getD i0 0 + (h - (i0 : ℚ)) * (s.getD i1 0 - s.getD i0 0))

/-- Model of `np.percentile` over maybe-NaN values (`none` = NaN): if any entry of
the data is NaN the result is NaN for every requested percentile
(numpy's `_quantile` marks every slice containing a NaN); otherwise the
interpolated percentile of the sorted data. Used by the `pymcspearman`
reduction (lines 168–169). -/
def npPercentile (vals : List (Option ℚ)) (p : ℚ) : Option ℚ :=
  if vals.any (fun v => v.isNone) then none
  else percentileSorted (sortQ (vals.filterMap id)) p

/-- Model of `np.nanpercentile` over maybe-NaN values: NaN entries are dropped
before the percentile is computed; an all-NaN input yields NaN. -/
def npNanPercentile (vals : List (Option ℚ)) (p : ℚ) : Option ℚ :=
  percentileSorted (sortQ (vals.filterMap id)) p

/-- Result shape of `pymcspearman` (trial values are maybe-NaN rationals:
the `(rho, pval)` floats of the external `scipy.stats.spearmanr`):
`single` for the no-randomization branch that warns and returns the one
`spearmanr` pair directly (lines 163–166); `summary` for the percentile
pair (line 172); `summaryDist` when `return_dist` also returns the raw
distributions (line 171). -/
inductive SpOut where
  | single (res : Option ℚ × Option ℚ)
  | summary (frho fpval : List (Option ℚ))
  | summaryDist (frho fpval : List (Option ℚ)) (rhos pvals : List (Option ℚ))
deriving DecidableEq

/-- The reduction of `pymcspearman` (lines 168–172): plain `np.percentile`
of the collected `rho` list and of the collected `pval` list at the
requested percentiles, then the `return_dist` choice. -/
def spreduce (trials : List (Option ℚ × Option ℚ)) (percentiles : List ℚ)
    (return_dist : Bool) : SpOut :=
  let rhos := trials.map Prod.fst
  let pvals := trials.map Prod.snd
  let frho := percentiles.map (npPercentile rhos)
  let fpval := percentiles.map (npPercentile pvals)
  if return_dist then .summaryDist frho fpval rhos pvals else .summary frho fpval

/-- The function `pymcspearman` (lines 102–173). Oracles: `sp` is the external
`scipy.stats.spearmanr` (maybe-NaN pair), `randi k i` is entry `(k,i)` of
the bootstrap matrix `members` (its draws range over
`membersDraw x.length`), `g1`/`g2` are the standard-normal streams behind
the x/y perturbations. After validation: bootstrap trials resample rows
through `members` and optionally apply one `perturb_values` realization
(`Nperturb=1`, flat); perturbation-only draws `Nperturb` realizations;
neither mode warns and returns the single `spearmanr` pair. Subscripting
an absent `dx`/`dy` in a perturbation branch is the Python `TypeError`;
`Nperturb == 1` in the perturbation-only branch makes `perturb_values`
return flat arrays, and `xp[0, :]` on a 1-D array is an `IndexError`. -/
def pymcspearman (x y : List ℚ) (dx dy : Option (List ℚ))
    (Nboot Nperturb : Option ℕ) (percentiles : List ℚ) (return_dist : Bool)
    (sp : List ℚ → List ℚ → Option ℚ × Option ℚ)
    (randi : ℕ → ℕ → ℕ) (g1 g2 : ℕ → ℕ → ℚ) : Except PyErr SpOut :=
  match validate x y dx dy Nperturb with
  | .error e => .error e
  | .ok _ =>
    match Nboot with
    | some nb =>
      match Nperturb with
      | some _ =>
        match dx, dy with
        | some dxl, some dyl =>
          match collectE ((List.range nb).map (fun k =>
            match perturb_values
                ((List.range x.length).map (fun i => x.getD (randi k i) 0))
                ((List.range x.length).map (fun i => y.getD (randi k i) 0))
                ((List.range x.length).map (fun i => dxl.getD (randi k i) 0))
                ((List.range x.length).map (fun i => dyl.getD (randi k i) 0))
                (fun _ i => g1 k i) (fun _ i => g2 k i) 1 with
            | .ok (.flat xs ys) => .ok (sp xs ys)
            | .ok (.grid xss yss) => .ok (sp xss.flatten yss.flatten)
            | .error e => .error e)) with
          | .ok trials => .ok (spreduce trials percentiles return_dist)
          | .error e => .error e
        | _, _ => .error .typeError
      | none =>
        .ok (spreduce ((List.range nb).map (fun k =>
          sp ((List.range x.length).map (fun i => x.getD (randi k i) 0))
             ((List.range x.length).map (fun i => y.getD (randi k i) 0))))
          percentiles return_dist)
    | none =>
      match Nperturb with
      | some np2 =>
        match dx, dy with
        | some dxl, some dyl =>
          match perturb_values x y dxl dyl g1 g2 np2 with
          | .ok (.grid xss yss) =>
            .ok (spreduce ((List.range np2).map (fun i =>
              sp (xss.getD i []) (yss.getD i []))) percentiles return_dist)
          | .ok (.flat _ _) => .error .indexError
          | .error e => .error e
        | _, _ => .error .typeError
      | none => .ok (.single (sp x y))

/-- The per-entry value of a Kendall-path perturbed array: the source
first perturbs every entry and then overwrites the censored positions
with the originals, so entry `(k,i)` of the final array is `v[i]` when
`lim[i] ≠ 0` and `v[i] + g k i * dv[i]` when `lim[i] = 0`. This is
`xp[xplim==0] += np.random.normal(...) * dx[members][xplim==0]` in the
bootstrap branch (lines 217–219, applied to the resampled arrays) and
`xp = [x]*Nperturb + normal*dx; xp[:, xlim!=0] = x[xlim!=0]` in the
perturbation-only branch (lines 228–231, applied to the originals). -/
def maskedPerturbEntry (v dv : List ℚ) (lim : List ℤ) (g : ℕ → ℕ → ℚ)
    (k i : ℕ) : ℚ :=
  if lim.getD i 0 ≠ 0 then v.getD i 0 else v.getD i 0 + g k i * dv.getD i 0

/-- Insert into a sorted list of reals (ascending). -/
noncomputable def insertR (a : ℝ) : List ℝ → List ℝ
  | [] => [a]
  | b :: t => if a ≤ b then a :: b :: t else b :: insertR a t

/-- Ascending insertion sort over `ℝ`. -/
noncomputable def sortR : List ℝ → List ℝ
  | [] => []
  | a :: t => insertR a (sortR t)

/-- Linear-interpolation percentile of a sorted nonempty list of reals,
as `percentileSorted` but over `ℝ`. -/
noncomputable def percentileSortedR (s : List ℝ) (p : ℚ) : Option ℝ :=
  match s with
  | [] => none
  | _ :: _ =>
    let h : ℝ := (p : ℝ) / 100 * ((s.length : ℝ) - 1)
    let i0 : ℕ := (Int.floor h).toNat
    let i1 : ℕ := (Int.ceil h).toNat
    some (s.getD i0 0 + (h - (i0 : ℝ)) * (s.getD i1 0 - s.getD i0 0))

/-- Model of `np.nanpercentile` over maybe-NaN reals (`none` = NaN): NaN entries
are dropped before the percentile is computed; an all-NaN input yields
NaN. Used by the `pymckendall` reduction (lines 243–244). -/
noncomputable def npNanPercentileR (vals : List (Option ℝ)) (p : ℚ) : Option ℝ :=
  percentileSortedR (sortR (vals.filterMap id)) p

/-- Result shape of `pymckendall` (trial values are the maybe-undefined
real `(tau, pval)` of `kendall`): `kSingle` for the no-randomization
branch that warns and returns the one `kendall` pair directly
(lines 236–241); `kSummary`/`kSummaryDist` for the percentile summaries
(lines 243–248). -/
inductive KOut where
  | kSingle (tau pval : Option ℝ)
  | kSummary (ftau fpval : List (Option ℝ))
  | kSummaryDist (ftau fpval : List (Option ℝ)) (taus pvals : List (Option ℝ))

/-- The reduction of `pymckendall` (lines 243–248): NaN-aware
`np.nanpercentile` of the collected `tau` list and of the collected
`pval` list at the requested percentiles, then the `return_dist`
choice. -/
noncomputable def kreduce (trials : List (Option ℝ × Option ℝ))
    (percentiles : List ℚ) (return_dist : Bool) : KOut :=
  let taus := trials.map Prod.fst
  let pvals := trials.map Prod.snd
  let ftau := percentiles.map (npNanPercentileR taus)
  let fpval := percentiles.map (npNanPercentileR pvals)
  if return_dist then .kSummaryDist ftau fpval taus pvals else .kSummary ftau fpval

/-- The function `pymckendall` (lines 176–248). Oracles as in `pymcspearman` (`randi`
ranges over `membersDraw x.length`). After validation: bootstrap trials
resample `x`, `y`, `xlim`, `ylim` through `members` and, when `Nperturb`
is also set, perturb only the entries whose RESAMPLED censor indicator is
0 (`maskedPerturbEntry` over the resampled rows, lines 217–219);
perturbation-only builds `Nperturb` copies perturbing only entries with
original indicator 0 (`maskedPerturbEntry`, lines 228–231) and evaluates
`kendall` with the original `xlim`, `ylim`; neither mode warns and
returns the single `kendall` pair. A `kendall` `ZeroDivisionError`
(sample size < 3) propagates out of the trial loop. -/
noncomputable def pymckendall (x y : List ℚ) (xlim ylim : List ℤ)
    (dx dy : Option (List ℚ)) (Nboot Nperturb : Option ℕ)
    (percentiles : List ℚ) (return_dist : Bool)
    (randi : ℕ → ℕ → ℕ) (g1 g2 : ℕ → ℕ → ℚ) : Except PyErr KOut :=
  match validate x y dx dy Nperturb with
  | .error e => .error e
  | .ok _ =>
    match Nboot with
    | some nb =>
      match Nperturb with
      | some _ =>
        match dx, dy with
        | some dxl, some dyl =>
          match collectE ((List.range nb).map (fun k =>
            (kendallStats
              ((List.range x.length).map (fun i => maskedPerturbEntry
                ((List.range x.length).map (fun m => x.getD (randi k m) 0))
                ((List.range x.length).map (fun m => dxl.getD (randi k m) 0))
                ((List.range x.length).map (fun m => xlim.getD (randi k m) 0))
                (fun _ j => g1 k j) 0 i))
              ((List.range x.length).map (fun i => maskedPerturbEntry
                ((List.range x.length).map (fun m => y.getD (randi k m) 0))
                ((List.range x.length).map (fun m => dyl.getD (randi k m) 0))
                ((List.range x.length).map (fun m => ylim.getD (randi k m) 0))
                (fun _ j => g2 k j) 0 i))
              ((List.range x.length).map (fun m => xlim.getD (randi k m) 0))
              ((List.range x.length).map (fun m => ylim.getD (randi k m) 0))).map
                tauPvalOf)) with
          | .ok trials => .ok (kreduce trials percentiles return_dist)
          | .error e => .error e
        | _, _ => .error .typeError
      | none =>
        match collectE ((List.range nb).map (fun k =>
          (kendallStats
            ((List.range x.length).map (fun i => x.getD (randi k i) 0))
            ((List.range x.length).map (fun i => y.getD (randi k i) 0))
            ((List.range x.length).map (fun i => xlim.getD (randi k i) 0))
            ((List.range x.length).map (fun i => ylim.getD (randi k i) 0))).map
              tauPvalOf)) with
        | .ok trials => .ok (kreduce trials percentiles return_dist)
        | .error e => .error e
    | none =>
      match Nperturb with
      | some np2 =>
        match dx, dy with
        | some dxl, some dyl =>
          match collectE ((List.range np2).map (fun k =>
            (kendallStats
              ((List.range x.length).map (fun i =>
                maskedPerturbEntry x dxl xlim g1 k i))
              ((List.range x.length).map (fun i =>
                maskedPerturbEntry y dyl ylim g2 k i))
              xlim ylim).map tauPvalOf)) with
          | .ok trials => .ok (kreduce trials percentiles return_dist)
          | .error e => .error e
        | _, _ => .error .typeError
      | none =>
        match kendallStats x y xlim ylim with
        | .error e => .error e
        | .ok s => .ok (.kSingle (tauPvalOf s).1 (tauPvalOf s).2)

/-- The uncensored pairwise comparison: 0 on a tie, −1 when the first
value is larger, +1 when it is smaller. Both concordance rules collapse
to this when every censor indicator is 0. -/
def sgnc (u v : ℚ) : ℤ :=
  if u = v then 0 else if u > v then -1 else 1

/-- The comparison matrix of a single uncensored column. -/
def sgncM (x : List ℚ) : ℕ → ℕ → ℤ :=
  fun i j => sgnc (x.getD i 0) (x.getD j 0)

theorem getD_replicate_zero (n i : ℕ) : (List.replicate n (0 : ℤ)).getD i 0 = 0 := by
  induction n generalizing i with
  | zero => rfl
  | succ m ih =>
    cases i with
    | zero => rfl
    | succ k => exact ih k

theorem aij_replicate (x : List ℚ) (n : ℕ) :
    aij x (List.replicate n 0) = sgncM x := by
  funext i j
  unfold aij sgncM sgnc
  simp [getD_replicate_zero]

theorem bij_replicate (y : List ℚ) (n : ℕ) :
    bij y (List.replicate n 0) = sgncM y := by
  funext i j
  unfold bij sgncM sgnc
  simp [getD_replicate_zero]

theorem Ssum_comm (A B : ℕ → ℕ → ℤ) (n : ℕ) : Ssum A B n = Ssum B A n := by
  unfold Ssum
  exact Finset.sum_congr rfl (fun i _ =>
    Finset.sum_congr rfl (fun j _ => mul_comm (A i j) (B i j)))

theorem kvar_comm (A B : ℕ → ℕ → ℤ) (n : ℕ) : kvar A B n = kvar B A n := by
  unfold kvar
  ring

/-- C1: the claim states the y branch mirrors the x branch — for
`y[i] < y[j]`, `b[i,j] = +1` exactly when `ylim[i] ∈ {0,+1}` and
`ylim[j] ∈ {0,−1}`. The source instead tests `ylim[i]==0 or ylim[i]==0`
(line 89). At `y = [0,1]`, `ylim = [+1,−1]` the mirrored x rule gives +1
(second conjunct, `aij` on the same data) while the code's `bij` gives 0
(first conjunct): the two rules differ. -/
theorem c1_bug_eval :
    bij [(0 : ℚ), 1] [(1 : ℤ), -1] 0 1 = 0
      ∧ aij [(0 : ℚ), 1] [(1 : ℤ), -1] 0 1 = 1 := by
  constructor <;> decide

/-- C2: the claim states bootstrap indices are sampled uniformly from
`[0, N)` so that `N−1` can be selected. The source draws
`np.random.randint(0, high=Nvalues-1)`, whose support is `[0, N−1)`
(`high` exclusive): at `N = 5` the index `4 = N−1` is NOT in the support
of any `members` entry (first conjunct), although it lies in the claimed
range `[0, 5)` (second conjunct). -/
theorem c2_bug_eval :
    ¬ ((4 : ℤ) ∈ membersDraw 5) ∧ (4 : ℤ) ∈ randintSupport 0 5 := by
  constructor
  · intro h
    have := h.2
    norm_num [membersDraw, randintSupport, Set.mem_Ico] at h
  · norm_num [randintSupport, Set.mem_Ico]

/-- C3: calling `kendall` with fewer than 3 points errors out before any
variance value (or NaN) is produced: the variance denominator
`num*(num-1)*(num-2)` is 0 for every `num < 3`, so the Python expression
`4/(num*(num-1)*(num-2))` raises (`ZeroDivisionError`, the realization of
the spec's DegenerateInputError), and no `(tau, pval)` result is
returned. -/
theorem c3_degenerate (x y : List ℚ) (xlim ylim : List ℤ)
    (h : x.length < 3) :
    kendallStats x y xlim ylim = Except.error PyErr.zeroDivision := by
  have hd : ((x.length : ℤ)) * ((x.length : ℤ) - 1) * ((x.length : ℤ) - 2) = 0 := by
    have h3 : (x.length : ℤ) = 0 ∨ (x.length : ℤ) = 1 ∨ (x.length : ℤ) = 2 := by omega
    rcases h3 with h0 | h0 | h0 <;> rw [h0] <;> norm_num
  unfold kendallStats
  rw [if_pos hd]

theorem c3_degenerate_witness :
    kendallStats [(1 : ℚ), 2] [(3 : ℚ), 4] [(0 : ℤ), 0] [(0 : ℤ), 0]
      = Except.error PyErr.zeroDivision :=
  c3_degenerate [(1 : ℚ), 2] [(3 : ℚ), 4] [(0 : ℤ), 0] [(0 : ℤ), 0] (by decide)

/-- C6: in the Kendall perturbation step, a point whose censor indicator
is nonzero is passed through unperturbed: the final array entry equals
the original value whenever `lim[i] ≠ 0`, for every trial `k`. This is
`maskedPerturbEntry`, the per-entry value of `xp`/`yp` in both the
perturbation-only branch of `pymckendall` (lines 228–231, `lim` the
original `xlim`/`ylim`) and its bootstrap+perturbation branch
(lines 217–219, `lim` the resampled indicators). -/
theorem c6_censored_passthrough (v dv : List ℚ) (lim : List ℤ)
    (g : ℕ → ℕ → ℚ) (k i : ℕ) (h : lim.getD i 0 ≠ 0) :
    maskedPerturbEntry v dv lim g k i = v.getD i 0 := by
  unfold maskedPerturbEntry
  rw [if_pos h]

theorem c6_witness :
    maskedPerturbEntry [(5 : ℚ)] [(2 : ℚ)] [(1 : ℤ)] (fun _ _ => 3) 0 0
      = [(5 : ℚ)].getD 0 0 :=
  c6_censored_passthrough [(5 : ℚ)] [(2 : ℚ)] [(1 : ℤ)] (fun _ _ => 3) 0 0 (by decide)

/-- C9: a tie in either coordinate contributes 0 to `S` regardless of the
censor indicators: whenever `x[i] = x[j]` or `y[i] = y[j]`, the first
branch of the corresponding matrix rule pins that factor to 0, so the
product `a[i,j]·b[i,j]` is 0. -/
theorem c9_ties_zero (x y : List ℚ) (xlim ylim : List ℤ) (i j : ℕ)
    (h : x.getD i 0 = x.getD j 0 ∨ y.getD i 0 = y.getD j 0) :
    aij x xlim i j * bij y ylim i j = 0 := by
  rcases h with h | h
  · unfold aij
    rw [if_pos h, zero_mul]
  · unfold bij
    rw [if_pos h, mul_zero]

theorem c9_witness :
    ([(1 : ℚ), 1].getD 0 0 = [(1 : ℚ), 1].getD 1 0)
      ∧ aij [(1 : ℚ), 1] [(0 : ℤ), 1] 0 1 * bij [(2 : ℚ), 3] [(-1 : ℤ), 0] 0 1 = 0 :=
  ⟨by decide, c9_ties_zero [(1 : ℚ), 1] [(2 : ℚ), 3] [(0 : ℤ), 1] [(-1 : ℤ), 0] 0 1
    (Or.inl (by decide))⟩

/-- C10: with every censor indicator 0, `kendall` is symmetric in its two
data columns: `kendall(x, y, 0s, 0s)` and `kendall(y, x, 0s, 0s)` return
the same `(tau, pval)` pair. With zero indicators both matrix rules
collapse to the plain comparison `sgncM`, so swapping the columns swaps
the `a` and `b` matrices; `S` and the variance are symmetric in `a` and
`b`, and `tau`/`pval` are functions of `(S, var, num)` alone. -/
theorem c10_symmetry (x y : List ℚ) (h : x.length = y.length) :
    kendallR x y (List.replicate x.length 0) (List.replicate y.length 0)
      = kendallR y x (List.replicate y.length 0) (List.replicate x.length 0) := by
  unfold kendallR
  have hs : kendallStats x y (List.replicate x.length 0) (List.replicate y.length 0)
      = kendallStats y x (List.replicate y.length 0) (List.replicate x.length 0) := by
    unfold kendallStats
    rw [aij_replicate x, bij_replicate y, aij_replicate y, bij_replicate x, ← h,
      Ssum_comm (sgncM x) (sgncM y), kvar_comm (sgncM x) (sgncM y)]
  rw [hs]

theorem c10_witness :
    kendallR [(1 : ℚ), 2, 4] [(3 : ℚ), 1, 2]
        (List.replicate [(1 : ℚ), 2, 4].length 0)
        (List.replicate [(3 : ℚ), 1, 2].length 0)
      = kendallR [(3 : ℚ), 1, 2] [(1 : ℚ), 2, 4]
        (List.replicate [(3 : ℚ), 1, 2].length 0)
        (List.replicate [(1 : ℚ), 2, 4].length 0) :=
  c10_symmetry [(1 : ℚ), 2, 4] [(3 : ℚ), 1, 2] (by decide)

/-- C7: `perturb_values` with trial count 1 returns the single
realization as a flat pair of length-N lists, and with trial count
`K ≥ 2` returns `K`-by-`N` collections (every row of length N). -/
theorem c7_shape (x y dx dy : List ℚ) (gx gy : ℕ → ℕ → ℚ) (K : ℕ)
    (h1 : x.length = y.length) (h2 : dx.length = dy.length)
    (h3 : x.length = dx.length) :
    (∃ xs ys, perturb_values x y dx dy gx gy 1 = Except.ok (PVOut.flat xs ys)
        ∧ xs.length = x.length ∧ ys.length = x.length)
      ∧ (2 ≤ K → ∃ xss yss,
          perturb_values x y dx dy gx gy K = Except.ok (PVOut.grid xss yss)
            ∧ xss.length = K ∧ yss.length = K
            ∧ (∀ r ∈ xss, r.length = x.length)
            ∧ (∀ r ∈ yss, r.length = x.length)) := by
  have e1 : ¬ x.length ≠ y.length := by omega
  have e2 : ¬ dx.length ≠ dy.length := by omega
  have e3 : ¬ x.length ≠ dx.length := by omega
  constructor
  · refine ⟨((List.range 1).map (fun k =>
        (List.range x.length).map (fun i => x.getD i 0 + gx k i * dx.getD i 0))).flatten,
      ((List.range 1).map (fun k =>
        (List.range x.length).map (fun i => y.getD i 0 + gy k i * dy.getD i 0))).flatten,
      ?_, ?_, ?_⟩
    · unfold perturb_values
      rw [if_neg e1, if_neg e2, if_neg e3, if_pos rfl]
    · simp [List.range_succ]
    · simp [List.range_succ]
  · intro hK
    refine ⟨(List.range K).map (fun k =>
        (List.range x.length).map (fun i => x.getD i 0 + gx k i * dx.getD i 0)),
      (List.range K).map (fun k =>
        (List.range x.length).map (fun i => y.getD i 0 + gy k i * dy.getD i 0)),
      ?_, ?_, ?_, ?_, ?_⟩
    · unfold perturb_values
      rw [if_neg e1, if_neg e2, if_neg e3, if_neg (by omega)]
    · simp
    · simp
    · intro r hr
      simp only [List.mem_map] at hr
      obtain ⟨k, _, hk⟩ := hr
      rw [← hk]
      simp
    · intro r hr
      simp only [List.mem_map] at hr
      obtain ⟨k, _, hk⟩ := hr
      rw [← hk]
      simp

theorem c7_witness :
    ([(1 : ℚ), 2].length = [(5 : ℚ), 6].length)
      ∧ ((∃ xs ys, perturb_values [(1 : ℚ), 2] [(5 : ℚ), 6] [(1 : ℚ), 1] [(1 : ℚ), 1]
            (fun _ _ => 0) (fun _ _ => 0) 1 = Except.ok (PVOut.flat xs ys)
          ∧ xs.length = [(1 : ℚ), 2].length ∧ ys.length = [(1 : ℚ), 2].length)
        ∧ (2 ≤ 2 → ∃ xss yss, perturb_values [(1 : ℚ), 2] [(5 : ℚ), 6] [(1 : ℚ), 1]
            [(1 : ℚ), 1] (fun _ _ => 0) (fun _ _ => 0) 2 = Except.ok (PVOut.grid xss yss)
          ∧ xss.length = 2 ∧ yss.length = 2
          ∧ (∀ r ∈ xss, r.length = [(1 : ℚ), 2].length)
          ∧ (∀ r ∈ yss, r.length = [(1 : ℚ), 2].length))) :=
  ⟨by decide, c7_shape [(1 : ℚ), 2] [(5 : ℚ), 6] [(1 : ℚ), 1] [(1 : ℚ), 1]
    (fun _ _ => 0) (fun _ _ => 0) 2 (by decide) (by decide) (by decide)⟩

/-- C4 counterexample: the claim states that whenever `Nperturb` is set
and `dx`, `dy` are not BOTH supplied, an ArgumentError is raised during
up-front validation. Concretely calling `pymcspearman` with
`Nperturb = 1`, `dx = [1,1]` supplied and `dy` missing passes all four
validation checks (the perturbation check fires only when both are
`None`) and fails only later, in the trial phase, with the `TypeError`
from `len(None)` inside `perturb_values` — not with the validation
`ValueError`. -/
theorem c4_counterexample :
    pymcspearman [(1 : ℚ), 2] [(1 : ℚ), 2] (some [(1 : ℚ), 1]) none
        none (some 1) [(50 : ℚ)] false
        (fun _ _ => (some 0, some 0)) (fun _ _ => 0) (fun _ _ => 0) (fun _ _ => 0)
      = Except.error PyErr.typeError
    ∧ PyErr.typeError ≠ PyErr.valuePerturb := by
  exact ⟨rfl, by decide⟩

/-- C4 amended: with `Nperturb` set, the up-front ArgumentError
(`ValueError`, "dx or dy must be provided...") is raised when `dx` and
`dy` are BOTH missing — in both entry points, before any trial work —
while supplying exactly one of them passes validation (see the
counterexample). -/
theorem c4_amended (x y : List ℚ) (xlim ylim : List ℤ) (Nboot : Option ℕ)
    (k : ℕ) (ps : List ℚ) (rd : Bool)
    (sp : List ℚ → List ℚ → Option ℚ × Option ℚ)
    (randi : ℕ → ℕ → ℕ) (g1 g2 : ℕ → ℕ → ℚ) :
    pymcspearman x y none none Nboot (some k) ps rd sp randi g1 g2
        = Except.error PyErr.valuePerturb
      ∧ pymckendall x y xlim ylim none none Nboot (some k) ps rd randi g1 g2
        = Except.error PyErr.valuePerturb := by
  have hv : validate x y none none (some k) = Except.error PyErr.valuePerturb := by
    unfold validate
    rw [if_pos]
    simp
  constructor
  · unfold pymcspearman
    rw [hv]
  · unfold pymckendall
    rw [hv]

/-- C5 counterexample: the claim states that BOTH entry points reduce
with a NaN-aware percentile. `pymcspearman` uses plain `np.percentile`
(lines 168–169): in this concrete bootstrap run of two trials, the first
trial's `spearmanr` result is NaN (`none`) and the returned 50th
percentile is NaN (`[none]`) rather than the 5 that the second,
well-defined trial alone would give (second conjunct: the NaN-aware
reduction of the same collected values yields `some 5`). -/
theorem c5_counterexample :
    pymcspearman [(1 : ℚ), 2, 3] [(1 : ℚ), 2, 3] none none (some 2) none
        [(50 : ℚ)] false
        (fun a _ => if a.getD 0 0 = 1 then (none, none) else (some 5, some 5))
        (fun k _ => k) (fun _ _ => 0) (fun _ _ => 0)
      = Except.ok (SpOut.summary [none] [none])
    ∧ npNanPercentile [none, some 5] 50 = some 5 := by
  refine ⟨rfl, ?_⟩
  norm_num [npNanPercentile, percentileSorted, sortQ, insertQ]

/-- C5 amended: `pymckendall`'s reduction (lines 243–244,
`np.nanpercentile`) ignores NaN entries — prepending an undefined trial
value changes nothing — while `pymcspearman`'s reduction (lines 168–169,
plain `np.percentile`) returns NaN for every requested percentile as
soon as any collected entry is NaN. -/
theorem c5_amended (rs : List (Option ℝ)) (qs : List (Option ℚ)) (p : ℚ) :
    npNanPercentileR (none :: rs) p = npNanPercentileR rs p
      ∧ npPercentile (none :: qs) p = none := by
  constructor
  · unfold npNanPercentileR
    rw [List.filterMap_cons_none]
    rfl
  · unfold npPercentile
    rw [if_pos]
    simp

/-- All four validation checks pass on well-formed inputs with `Nperturb`
unset. -/
theorem validate_ok (x y : List ℚ) (dx dy : Option (List ℚ))
    (hxy : x.length = y.length)
    (hdx : ∀ l, dx = some l → l.length = x.length)
    (hdy : ∀ l, dy = some l → l.length = y.length) :
    validate x y dx dy none = Except.ok () := by
  have h1 : ¬((none : Option ℕ).isSome ∧ dx.isNone ∧ dy.isNone) := by simp
  have h2 : ¬ x.length ≠ y.length := by omega
  have h3 : ¬ (optLenBad dx x.length = true) := by
    cases dx with
    | none => simp [optLenBad]
    | some l => simp [optLenBad, hdx l rfl]
  have h4 : ¬ (optLenBad dy y.length = true) := by
    cases dy with
    | none => simp [optLenBad]
    | some l => simp [optLenBad, hdy l rfl]
  unfold validate
  rw [if_neg h1, if_neg h2, if_neg h3, if_neg h4]

/-- C8: with neither `Nboot` nor `Nperturb` set and well-formed inputs,
neither entry point raises: `pymcspearman` takes the advisory branch
(lines 162–166) and returns the single `spearmanr` pair directly, and
`pymckendall` takes its advisory branch (lines 236–241) and returns the
single `kendall` pair directly — in both cases the `SpOut.single` /
`KOut.kSingle` shape, not a percentile summary. -/
theorem c8_no_randomization (x y : List ℚ) (xlim ylim : List ℤ)
    (dx dy : Option (List ℚ)) (ps : List ℚ) (rd : Bool)
    (sp : List ℚ → List ℚ → Option ℚ × Option ℚ)
    (randi : ℕ → ℕ → ℕ) (g1 g2 : ℕ → ℕ → ℚ)
    (hxy : x.length = y.length)
    (hdx : ∀ l, dx = some l → l.length = x.length)
    (hdy : ∀ l, dy = some l → l.length = y.length)
    (hn : 3 ≤ x.length) :
    pymcspearman x y dx dy none none ps rd sp randi g1 g2
        = Except.ok (SpOut.single (sp x y))
      ∧ ∃ s, kendallStats x y xlim ylim = Except.ok s
        ∧ pymckendall x y xlim ylim dx dy none none ps rd randi g1 g2
          = Except.ok (KOut.kSingle (tauPvalOf s).1 (tauPvalOf s).2) := by
  have hv : validate x y dx dy none = Except.ok () := validate_ok x y dx dy hxy hdx hdy
  have hd : ¬ (((x.length : ℤ)) * ((x.length : ℤ) - 1) * ((x.length : ℤ) - 2) = 0) := by
    have p1 : (0 : ℤ) < (x.length : ℤ) := by omega
    have p2 : (0 : ℤ) < (x.length : ℤ) - 1 := by omega
    have p3 : (0 : ℤ) < (x.length : ℤ) - 2 := by omega
    exact (mul_pos (mul_pos p1 p2) p3).ne'
  have hks : kendallStats x y xlim ylim
      = Except.ok ⟨Ssum (aij x xlim) (bij y ylim) x.length,
          kvar (aij x xlim) (bij y ylim) x.length, x.length⟩ := by
    unfold kendallStats
    rw [if_neg hd]
  constructor
  · unfold pymcspearman
    rw [hv]
  · refine ⟨_, hks, ?_⟩
    unfold pymckendall
    rw [hv, hks]

theorem c8_witness :
    pymcspearman [(1 : ℚ), 2, 3] [(2 : ℚ), 3, 1] none none none none
        [(50 : ℚ)] false (fun _ _ => (some 0, some 0))
        (fun _ _ => 0) (fun _ _ => 0) (fun _ _ => 0)
      = Except.ok (SpOut.single ((fun _ _ => ((some 0 : Option ℚ), (some 0 : Option ℚ)))
          [(1 : ℚ), 2, 3] [(2 : ℚ), 3, 1]))
    ∧ ∃ s, kendallStats [(1 : ℚ), 2, 3] [(2 : ℚ), 3, 1] [(0 : ℤ), 0, 0] [(0 : ℤ), 0, 0]
        = Except.ok s
      ∧ pymckendall [(1 : ℚ), 2, 3] [(2 : ℚ), 3, 1] [(0 : ℤ), 0, 0] [(0 : ℤ), 0, 0]
          none none none none [(50 : ℚ)] false (fun _ _ => 0) (fun _ _ => 0) (fun _ _ => 0)
        = Except.ok (KOut.kSingle (tauPvalOf s).1 (tauPvalOf s).2) :=
  c8_no_randomization [(1 : ℚ), 2, 3] [(2 : ℚ), 3, 1] [(0 : ℤ), 0, 0] [(0 : ℤ), 0, 0]
    none none [(50 : ℚ)] false (fun _ _ => (some 0, some 0))
    (fun _ _ => 0) (fun _ _ => 0) (fun _ _ => 0)
    (by decide) (fun l h => by cases h) (fun l h => by cases h) (by decide)
